import Mathlib

/-!
Shallow embedding of the vine service-registry client (crate `registry` of
vine-rs/vine): the data model (`types.rs`), the key encoding and codec
boundary (`etcd/etcd.rs`), the registration state machine
(`EtcdRegistry::register_node` / `register` / `deregister` in
`etcd/lib.rs`), the watch-event translation (`etcd/watch.rs`), the
read-side aggregation (`get_service` / `list_service`), and the options
defaulting (`options.rs`, `EtcdRegistry::new`).

Conventions of the embedding:
* Rust `HashMap<String, V>` becomes an association list `List (String × V)`
  with replace-in-place insertion; iteration order is the insertion order
  (claims proved below do not depend on `HashMap` iteration order except
  through `list_service`, which sorts its keys as the source does).
* `std::collections::hash_map::DefaultHasher` is modelled by the trace of
  writes fed to it (`List HashWrite`): equal traces give equal 64-bit
  hashes in the real code, and every fact proved here uses only that
  direction (no collision-freedom is assumed anywhere).
* The external serde_json / UTF-8 codec (an out-of-scope collaborator) is
  modelled at its observable boundary: a stored byte value is either not
  valid UTF-8 (`value_str` fails), valid UTF-8 that does not decode to a
  `Service`, or the encoding of a `Service`.
* Network calls are modelled by an explicit environment holding each
  call's response, and each operation additionally returns the list of
  store calls it performed, so that "no put" / "no new lease" claims are
  statements about that list.
-/

namespace Vine

/-- Association-list model of `HashMap<String, V>`: lookup. -/
def mapLookup {α : Type} : List (String × α) → String → Option α
  | [], _ => none
  | (k', v) :: rest, k => if k' = k then some v else mapLookup rest k

/-- Association-list model of `HashMap<String, V>`: insert replaces the
value in place when the key is present, else appends. -/
def mapInsert {α : Type} : List (String × α) → String → α → List (String × α)
  | [], k, v => [(k, v)]
  | (k', v') :: rest, k, v =>
    if k' = k then (k, v) :: rest else (k', v') :: mapInsert rest k v

/-- Association-list model of `HashMap<String, V>`: remove. -/
def mapRemove {α : Type} : List (String × α) → String → List (String × α)
  | [], _ => []
  | (k', v') :: rest, k =>
    if k' = k then mapRemove rest k else (k', v') :: mapRemove rest k

theorem mapLookup_insert_self {α : Type} (m : List (String × α)) (k : String) (v : α) :
    mapLookup (mapInsert m k v) k = some v := by
  induction m with
  | nil => simp [mapInsert, mapLookup]
  | cons hd tl ih =>
    by_cases h : hd.1 = k
    · simp [mapInsert, h, mapLookup]
    · simp [mapInsert, h, mapLookup, ih]

theorem mapLookup_insert_ne {α : Type} (m : List (String × α)) (k k' : String) (v : α)
    (h : k ≠ k') : mapLookup (mapInsert m k v) k' = mapLookup m k' := by
  induction m with
  | nil => simp [mapInsert, mapLookup, h]
  | cons hd tl ih =>
    by_cases hk : hd.1 = k
    · simp [mapInsert, hk, mapLookup, h]
    · simp [mapInsert, hk, mapLookup, ih]

theorem mapLookup_remove {α : Type} (m : List (String × α)) (k k' : String) :
    mapLookup (mapRemove m k) k' = if k = k' then none else mapLookup m k' := by
  induction m with
  | nil => simp [mapRemove, mapLookup]
  | cons hd tl ih =>
    by_cases hk : hd.1 = k
    · by_cases hkk : k = k' <;> simp_all [mapRemove, mapLookup]
    · by_cases hkk : k = k'
      · subst hkk; simp_all [mapRemove, mapLookup]
      · simp [mapRemove, hk, mapLookup, ih, hkk]

/-! ## The data model (`registry/src/types.rs`) -/

/-- `Value` of `types.rs` (opaque request/response shape; recursive). -/
inductive Value : Type
  | mk (name : String) (rtype : String) (values : List Value)

/-- `Endpoint` of `types.rs`. -/
structure Endpoint : Type where
  name : String
  request : Option Value
  response : Option Value
  metadata : List (String × String)

/-- Registry `Options` embedded in a `Service` record (`types.rs`). -/
structure TOptions : Type where
  ttl : Int

/-- The OpenAPI metadata block carried by a `Service` (`types.rs`,
`OpenApi` and its sub-structures). The spec scopes these out as pure data
with no behavior; the registry core never inspects them, so the embedding
carries them as an opaque tag value. -/
structure OpenApi : Type where
  tag : Nat

/-- `Node` of `types.rs`: `{id, address, port, metadata}`. -/
structure Node : Type where
  id : String
  address : String
  port : Int
  metadata : List (String × String)
deriving DecidableEq

/-- `Service` of `types.rs`. -/
structure Service : Type where
  name : String
  version : String
  metadata : List (String × String)
  endpoints : List Endpoint
  nodes : List Node
  options : Option TOptions
  apis : Option OpenApi

/-- `Service::new()` of `types.rs`: all fields empty / none. -/
def Service.new : Service :=
  { name := "", version := "", metadata := [], endpoints := [],
    nodes := [], options := none, apis := none }

/-! ## The hash model (`impl Hash for Node`, `types.rs` lines 40-52)

`DefaultHasher` is modelled by the trace of writes it receives.  Rust's
`Hash for str` writes the string's bytes followed by a `0xff` terminator
byte; `Hash for i64` writes the integer. -/

/-- One write fed to a `Hasher`. -/
inductive HashWrite : Type
  | str (s : String)
  | u8 (n : Nat)
  | i64 (n : Int)
deriving DecidableEq, Repr

/-- The write trace of `String::hash` (bytes then the `0xff` terminator). -/
def hashOfString (s : String) : List HashWrite := [.str s, .u8 255]

/-- The write trace of `i64::hash`. -/
def hashOfInt64 (n : Int) : List HashWrite := [.i64 n]

/-- The writes `impl Hash for Node` feeds to the CALLER's hasher `state`:
`id`, `address` and `port` only.  The metadata loop in the source writes
into a freshly created local `DefaultHasher` whose result is never
combined into `state` (see `Node.metadataLocalWrites`), so the metadata
contributes nothing to the hash the registry compares. -/
def Node.hashData (n : Node) : List HashWrite :=
  hashOfString n.id ++ hashOfString n.address ++ hashOfInt64 n.port

/-- The writes the metadata loop of `impl Hash for Node` feeds to its
LOCAL hasher (`hasher.write(k.as_bytes()); hasher.write(v.as_bytes())`).
That hasher's `finish()` is never taken and never written to `state`:
these writes are dead in the source, and `Node.hashData` therefore omits
them. -/
def Node.metadataLocalWrites (n : Node) : List HashWrite :=
  n.metadata.flatMap fun kv => [.str kv.1, .str kv.2]

/-- The content-hash value cached by the tracker (`h.finish()` modelled by
the full write trace). -/
abbrev ContentHash := List HashWrite

/-! ## Key encoding (`registry/src/etcd/etcd.rs`) -/

/-- `static PREFIX: &str = r"/vine/registry/";` (`etcd.rs` line 25) —
note the trailing slash in the source literal. -/
def PREFIX : String := "/vine/registry/"

/-- Model of `str::replace("/", "-")`: the pattern is the single
character `/`, so the replacement is the character-wise map sending `/`
to `-`. -/
def sanitize (s : String) : String :=
  ⟨s.data.map (fun c => if c = '/' then '-' else c)⟩

/-- `node_path` of `etcd.rs` lines 227-231:
`PREFIX.to_string() + "/" + service + "/" + node` after replacing `/`
with `-` in both components. -/
def node_path (s i : String) : String :=
  PREFIX ++ "/" ++ sanitize s ++ "/" ++ sanitize i

/-! ## The codec boundary (`encode` / `decode` of `etcd.rs`, serde_json)

A stored byte value, as the registry observes it through
`str::from_utf8` / `value_str` (which fail on non-UTF-8 bytes and
propagate with `?`) followed by `decode` (`serde_json::from_str` wrapped
to return `Option<Service>`). -/

/-- A raw stored value at the codec boundary. -/
inductive RawValue : Type
  | invalidUtf8
  | badJson (raw : String)
  | jsonOf (s : Service)

/-- `value_str` / `str::from_utf8` composed with `decode`:
non-UTF-8 bytes are an error (propagated by `?` at every use site);
valid UTF-8 that is not a `Service` encoding decodes to `none`;
an encoded `Service` decodes to `some`. -/
def valueDecode : RawValue → Except String (Option Service)
  | .invalidUtf8 => .error "invalid utf-8 sequence"
  | .badJson _ => .ok none
  | .jsonOf s => .ok (some s)

/-! ## Registration (`EtcdRegistry` of `etcd/lib.rs`)

`data: Arc<Mutex<(HashMap<String, u64>, HashMap<String, i64>)>>` —
component 0 is `registers` (content hashes), component 1 is `leases`. -/

/-- The tracker state guarded by the mutex. -/
structure RegState : Type where
  registers : List (String × ContentHash)
  leases : List (String × Int)

/-- `RegisterOptions` of `options.rs`. -/
structure RegisterOptions : Type where
  ttl : Int

/-- `RegisterOptions::new()` — `ttl: 15`. -/
def RegisterOptions.new : RegisterOptions := { ttl := 15 }

/-- `DeregisterOptions` of `options.rs` (no fields). -/
structure DeregisterOptions : Type where

/-- One key/value pair of a `get` response as `register_node` observes it:
the stored value and `kv.lease()`. -/
structure KeyValue : Type where
  value : RawValue
  lease : Int

/-- A store call performed by an operation, in order. -/
inductive Effect : Type
  | get (key : String)
  | keepAlive (leaseId : Int)
  | leaseGrant (ttl : Int)
  | put (key : String) (value : Service) (leaseOpt : Option Int)
  | del (key : String)

/-- Whether an effect is a `put` (a store write). -/
def Effect.isPut : Effect → Bool
  | .put _ _ _ => true
  | _ => false

/-- Whether an effect is a `lease_grant` (a new lease request). -/
def Effect.isLeaseGrant : Effect → Bool
  | .leaseGrant _ => true
  | _ => false

/-- The store's responses to the calls one `register_node` run can make. -/
structure RegEnv : Type where
  /-- Response to the serializable `get` of the node path. -/
  getResult : Except String (List KeyValue)
  /-- Whether `lease_keep_alive` succeeds. -/
  keepAliveOk : Bool
  /-- `lease_grant` response: the granted lease id, or a failure. -/
  leaseGrant : Except String Int
  /-- `put` response. -/
  putResult : Except String Unit

/-- An operation's outcome: the returned `Result`, the shared tracker
state after the call, and the store calls performed in order. -/
structure CallOut : Type where
  result : Except String Unit
  state : RegState
  effects : List Effect

/-- The lease-adoption loop of `register_node` (`etcd/lib.rs` lines
99-118): for every returned kv with a positive lease, decode the stored
`Service` (non-UTF-8 propagates as an error; undecodable JSON and
node-less services are skipped) and cache the decoded first node's lease
id and content hash under the decoded service name + node id. -/
def adoptKvs (regs : List (String × ContentHash)) (ls : List (String × Int)) :
    List KeyValue → Except String (List (String × ContentHash) × List (String × Int))
  | [] => .ok (regs, ls)
  | kv :: rest =>
    if kv.lease > 0 then
      match valueDecode kv.value with
      | .error e => .error e
      | .ok none => adoptKvs regs ls rest
      | .ok (some s) =>
        match s.nodes with
        | [] => adoptKvs regs ls rest
        | node :: _ =>
          adoptKvs (mapInsert regs (s.name ++ node.id) node.hashData)
            (mapInsert ls (s.name ++ node.id) kv.lease) rest
    else adoptKvs regs ls rest

/-- The tail of `register_node` after the lease phase (`etcd/lib.rs`
lines 131-189): compute the node's content hash, skip when the (local)
cached hash matches and the lease renewal did not fail, otherwise build
the single-node service, request a lease (`ttl` defaulting to 15),
degrade to `lease_id = 0` on grant failure, `put`, and commit the updated
maps back into the shared state. `st` is the shared state (untouched on
the skip path and on a failed put); `regs`/`ls` are the locked clone as
updated by the lease phase. -/
def registerNodeWrite (st : RegState) (s : Service) (node : Node)
    (opt : Option RegisterOptions) (env : RegEnv)
    (regs : List (String × ContentHash)) (ls : List (String × Int))
    (lease_not_found : Bool) (eff : List Effect) : CallOut :=
  let key := s.name ++ node.id
  let hash := node.hashData
  if mapLookup regs key = some hash ∧ lease_not_found = false then
    { result := .ok (), state := st, effects := eff }
  else
    let svc := { s with nodes := [node] }
    let ttl : Int := match opt with | some o => o.ttl | none => 15
    let eff := eff ++ [.leaseGrant ttl]
    let (lease_id, leaseOpt) : Int × Option Int :=
      match env.leaseGrant with
      | .ok lid => (lid, some lid)
      | .error _ => (0, none)
    let eff := eff ++ [.put (node_path svc.name node.id) svc leaseOpt]
    match env.putResult with
    | .error e => { result := .error e, state := st, effects := eff }
    | .ok _ =>
      let regs := mapInsert regs (svc.name ++ node.id) hash
      let ls := if lease_id ≠ 0 then mapInsert ls (svc.name ++ node.id) lease_id else ls
      { result := .ok (), state := { registers := regs, leases := ls }, effects := eff }

/-- `EtcdRegistry::register_node` (`etcd/lib.rs` lines 73-190): reject a
node-less service; clone the tracker maps; when no lease is cached for
`key = s.name + node.id`, read the node path and adopt any existing
lease/hash; when a positive lease is cached, attempt `lease_keep_alive`
and record failure in `lease_not_found` instead of aborting; then run the
hash-compare / write tail. -/
def registerNode (st : RegState) (s : Service) (node : Node)
    (opt : Option RegisterOptions) (env : RegEnv) : CallOut :=
  if s.nodes.length = 0 then
    { result := .error "require at lease one node", state := st, effects := [] }
  else
    let key := s.name ++ node.id
    match mapLookup st.leases key with
    | none =>
      let eff := [Effect.get (node_path s.name node.id)]
      match env.getResult with
      | .error e => { result := .error e, state := st, effects := eff }
      | .ok kvs =>
        match adoptKvs st.registers st.leases kvs with
        | .error e => { result := .error e, state := st, effects := eff }
        | .ok (regs, ls) =>
          registerNodeWrite st s node opt env regs ls false eff
    | some lease_id =>
      if lease_id > 0 then
        registerNodeWrite st s node opt env st.registers st.leases
          (!env.keepAliveOk) [Effect.keepAlive lease_id]
      else
        registerNodeWrite st s node opt env st.registers st.leases false []

/-- The per-node loop of `EtcdRegistry::register`: nodes are registered
sequentially, each against its own store responses; the first failure
aborts the remaining nodes. -/
def registerLoop (st : RegState) (s : Service) (popt : RegisterOptions) :
    List (Node × RegEnv) → CallOut
  | [] => { result := .ok (), state := st, effects := [] }
  | (n, env) :: rest =>
    let out := registerNode st s n (some popt) env
    match out.result with
    | .error e => { result := .error e, state := out.state, effects := out.effects }
    | .ok _ =>
      let out2 := registerLoop out.state s popt rest
      { result := out2.result, state := out2.state,
        effects := out.effects ++ out2.effects }

/-- `EtcdRegistry::register` (`etcd/lib.rs` lines 206-221): fail when
`s.nodes` is empty, else default the options and register each node
individually. The environment supplies one `RegEnv` per node. -/
def register (st : RegState) (s : Service) (opt : Option RegisterOptions)
    (envs : List RegEnv) : CallOut :=
  if s.nodes.length = 0 then
    { result := .error "require at lease one node", state := st, effects := [] }
  else
    let popt := match opt with | some o => o | none => RegisterOptions.new
    registerLoop st s popt (s.nodes.zip envs)

/-- The per-node loop of `EtcdRegistry::deregister`: remove the cache
entries for the key (committed immediately under the lock), then delete
the store key; a delete failure propagates at once. -/
def deregisterLoop (st : RegState) (name : String) :
    List (Node × Except String Unit) → CallOut
  | [] => { result := .ok (), state := st, effects := [] }
  | (n, res) :: rest =>
    let key := name ++ n.id
    let st' : RegState :=
      { registers := mapRemove st.registers key, leases := mapRemove st.leases key }
    let eff := [Effect.del (node_path name n.id)]
    match res with
    | .error e => { result := .error e, state := st', effects := eff }
    | .ok _ =>
      let out := deregisterLoop st' name rest
      { result := out.result, state := out.state, effects := eff ++ out.effects }

/-- `EtcdRegistry::deregister` (`etcd/lib.rs` lines 223-244): fail when
`s.nodes` is empty, else for each node remove the tracker entries and
delete the node's store key. The environment supplies one delete
response per node; the options argument is ignored by the source. -/
def deregister (st : RegState) (s : Service) (_opt : Option DeregisterOptions)
    (dels : List (Except String Unit)) : CallOut :=
  if s.nodes.length = 0 then
    { result := .error "required at lease one node", state := st, effects := [] }
  else
    deregisterLoop st s.name (s.nodes.zip dels)

/-! ## The watcher (`etcd/watch.rs`) -/

/-- A key/value pair of a raw watch notification, with the revision
counters `EtcdWatcher::next` reads. -/
structure WatchKv : Type where
  value : RawValue
  createRevision : Int
  modRevision : Int

/-- The etcd event kind. -/
inductive RawEventType : Type
  | put
  | delete

/-- One raw change notification: its kind, its key/value (absent when the
store sends no kv) and, for deletes, the previous key/value. -/
structure RawEvent : Type where
  eventType : RawEventType
  kv : Option WatchKv
  prevKv : Option WatchKv

/-- One message of the watch stream: the cancellation flag and the raw
events it carries. -/
structure WatchResponse : Type where
  canceled : Bool
  events : List RawEvent

/-- `Result` of `types.rs`: the domain watch event
`{action, service, timestamp}`. -/
structure Result : Type where
  action : String
  service : Option Service
  timestamp : Int

/-- The body of the per-event loop of `EtcdWatcher::next` (`watch.rs`
lines 30-74): an event with no kv is skipped; a put decodes the value
(non-UTF-8 propagates, undecodable JSON leaves the default
`Service::new()`) and classifies by comparing the creation and
modification revisions; a delete decodes the previous value the same way
and is skipped when no previous kv is present.  Returns `none` for
"continue", `some` for a returned event. -/
def processEvent (now : Int) (event : RawEvent) : Except String (Option Result) :=
  match event.kv with
  | none => .ok none
  | some kv =>
    match event.eventType with
    | .put =>
      match valueDecode kv.value with
      | .error e => .error e
      | .ok dec =>
        let service := match dec with | some svc => svc | none => Service.new
        let action := if kv.createRevision = kv.modRevision then "create" else "update"
        .ok (some { action := action, service := some service, timestamp := now })
    | .delete =>
      match event.prevKv with
      | none => .ok none
      | some pkv =>
        match valueDecode pkv.value with
        | .error e => .error e
        | .ok dec =>
          let service := match dec with | some svc => svc | none => Service.new
          .ok (some { action := "delete", service := some service, timestamp := now })

/-- The event loop of one watch message: the first event that yields a
domain event (or an error) decides; events that yield `none` are skipped. -/
def nextEvents (now : Int) : List RawEvent → Except String (Option Result)
  | [] => .ok none
  | e :: rest =>
    match processEvent now e with
    | .error err => .error err
    | .ok (some r) => .ok (some r)
    | .ok none => nextEvents now rest

/-- `EtcdWatcher::next` over the remaining stream (`watch.rs` lines
22-78): a canceled message fails with the cancellation error; otherwise
the message's events are scanned and, when none yields, the loop pulls
the next message; an exhausted stream fails with "could not get next".
`now` stands for `Local::now().timestamp()` at return time. -/
def watcherNext (now : Int) : List WatchResponse → Except String Result
  | [] => .error "could not get next"
  | rsp :: rest =>
    if rsp.canceled then .error "could not get next, watch is canceled"
    else
      match nextEvents now rsp.events with
      | .error e => .error e
      | .ok (some r) => .ok r
      | .ok none => watcherNext now rest

/-! ## Read-side aggregation (`get_service` / `list_service`,
`etcd/lib.rs` lines 246-319) -/

/-- One grouping step: the first service seen for a version is stored as
is; a later one appends its nodes to the stored service
(`s.nodes = vec![s.nodes, sn.nodes].concat()`). -/
def aggregateStep (m : List (String × Service)) (sn : Service) :
    List (String × Service) :=
  match mapLookup m sn.version with
  | none => mapInsert m sn.version sn
  | some s => mapInsert m sn.version { s with nodes := s.nodes ++ sn.nodes }

/-- The shared grouping loop of `get_service` and `list_service`:
`kv.value_str()?` propagates non-UTF-8 values as an error, undecodable
JSON is skipped, and decoded services are grouped by version. -/
def buildMapFrom (m : List (String × Service)) :
    List RawValue → Except String (List (String × Service))
  | [] => .ok m
  | v :: rest =>
    match valueDecode v with
    | .error e => .error e
    | .ok none => buildMapFrom m rest
    | .ok (some sn) => buildMapFrom (aggregateStep m sn) rest

/-- `EtcdRegistry::get_service` on the prefix-scan response: zero
entries fail with "service not found"; otherwise the grouped services
are returned (the source iterates the `HashMap`; the embedding returns
them in first-seen-version order). -/
def get_service (kvs : List RawValue) : Except String (List Service) :=
  if kvs.length = 0 then .error "service not found"
  else
    match buildMapFrom [] kvs with
    | .error e => .error e
    | .ok m => .ok (m.map (·.2))

/-- Lexicographic comparison of char lists by codepoint: the model of
Rust's `Ord for String` (byte-lexicographic, which UTF-8 makes equal to
codepoint-lexicographic). -/
def charListLe : List Char → List Char → Bool
  | [], _ => true
  | _ :: _, [] => false
  | a :: as, b :: bs => if a = b then charListLe as bs else decide (a.toNat < b.toNat)

/-- String comparison used by `m.keys().sorted()`. -/
def strLe (a b : String) : Bool := charListLe a.data b.data

/-- The sorted key traversal of `list_service`
(`for v in m.keys().sorted()`), modelled by a stable sort of the key
list in insertion order. -/
def sortedKeys (m : List (String × Service)) : List String :=
  List.insertionSort (fun a b => strLe a b = true) (m.map (·.1))

/-- `EtcdRegistry::list_service` on the namespace prefix-scan response:
zero entries return the empty list; otherwise the grouped services are
returned in sorted version-key order (`m[v]` for each sorted key). -/
def list_service (kvs : List RawValue) : Except String (List Service) :=
  if kvs.length = 0 then .ok []
  else
    match buildMapFrom [] kvs with
    | .error e => .error e
    | .ok m => .ok ((sortedKeys m).filterMap (mapLookup m))

/-! ## Options (`options.rs`, `EtcdRegistry::new` of `etcd/lib.rs`) -/

/-- `Options` of `options.rs`. -/
structure Options : Type where
  addr : List String
  timeout : Int
  secure : Bool

/-- `Options::new()` (`options.rs` lines 9-17): a single localhost
endpoint, `timeout: 15`, insecure. -/
def Options.new : Options :=
  { addr := ["127.0.0.1:2379"], timeout := 15, secure := false }

/-- The options defaulting performed by `EtcdRegistry::new`
(`etcd/lib.rs` lines 30-48): a missing `Options` becomes
`Options::new()`, and a zero timeout becomes 5. -/
def newOptions (opt : Option Options) : Options :=
  let opts := match opt with | none => Options.new | some o => o
  if opts.timeout = 0 then { opts with timeout := 5 } else opts

/-! ## Concrete inputs used by the claim theorems -/

/-- A node as in the repository's tests, with one metadata entry. -/
def nodeMetaA : Node :=
  { id := "1", address := "192.168.1.111", port := 11101, metadata := [("env", "a")] }

/-- `nodeMetaA` with its single metadata value altered. -/
def nodeMetaB : Node :=
  { id := "1", address := "192.168.1.111", port := 11101, metadata := [("env", "b")] }

/-- The single-node service of the repository's tests around a given node. -/
def svcOf (n : Node) : Service :=
  { name := "io.vine.helloworld", version := "v1.0.0", metadata := [],
    endpoints := [], nodes := [n], options := none, apis := none }

/-- Tracker state after a successful registration of `nodeMetaA`:
its content hash and a granted lease id 5 are cached under
`service.name + node.id`. -/
def stAfterA : RegState :=
  { registers := [("io.vine.helloworld1", nodeMetaA.hashData)],
    leases := [("io.vine.helloworld1", 5)] }

/-- A store that answers every call successfully. -/
def envBenign : RegEnv :=
  { getResult := .ok [], keepAliveOk := true, leaseGrant := .ok 7, putResult := .ok () }

/-! ## Claim theorems -/

/-- C1: the claim says re-registering a node after altering any one of
its four fields — in particular any single metadata value — produces a
different content hash, hence a new store write and a new lease.  The
code contradicts this: `impl Hash for Node` writes the metadata pairs
into a locally created hasher whose result is discarded, so two nodes
differing only in a metadata value have identical content hashes, and
`register_node` skips the write entirely (no put, no lease grant, cache
untouched).  This theorem evaluates the code at the failing input. -/
theorem C1_metadata_change_not_detected :
    nodeMetaA.metadata ≠ nodeMetaB.metadata ∧
    nodeMetaA.metadataLocalWrites ≠ nodeMetaB.metadataLocalWrites ∧
    nodeMetaA.hashData = nodeMetaB.hashData ∧
    registerNode stAfterA (svcOf nodeMetaB) nodeMetaB none envBenign
      = { result := .ok (), state := stAfterA, effects := [.keepAlive 5] } := by
  refine ⟨by decide, by decide, by decide, ?_⟩
  rfl

/-- C3 counterexample: the claim says a notification whose value fails
to decode is silently skipped and never surfaced or returned.  The code
instead returns an event carrying the default empty `Service::new()`
when the value is valid UTF-8 but undecodable JSON, and surfaces an
error from `next()` when the value is not valid UTF-8. -/
theorem C3_decode_failure_counterexample :
    watcherNext 100
        [{ canceled := false,
           events := [{ eventType := .put,
                        kv := some { value := .badJson "not json", createRevision := 3, modRevision := 3 },
                        prevKv := none }] }]
      = .ok { action := "create", service := some Service.new, timestamp := 100 } ∧
    watcherNext 100
        [{ canceled := false,
           events := [{ eventType := .put,
                        kv := some { value := .invalidUtf8, createRevision := 3, modRevision := 3 },
                        prevKv := none }] }]
      = .error "invalid utf-8 sequence" := by
  exact ⟨rfl, rfl⟩

/-- C3 amended: a put (or delete-previous) value that is valid UTF-8 but
fails to decode still yields a returned event whose service is the
default empty `Service::new()` (with the action classified as usual); a
value that is not valid UTF-8 surfaces as an error from `next()`; only a
notification with no kv at all (or a delete with no previous kv, see C4)
is skipped. -/
theorem C3_decode_failure_behavior (now cr mr : Int) (raw : String)
    (pk : Option WatchKv) (kvd : WatchKv) (t : RawEventType) :
    processEvent now
        { eventType := .put,
          kv := some { value := .badJson raw, createRevision := cr, modRevision := mr },
          prevKv := pk }
      = .ok (some { action := if cr = mr then "create" else "update",
                    service := some Service.new, timestamp := now }) ∧
    processEvent now
        { eventType := .delete, kv := some kvd,
          prevKv := some { value := .badJson raw, createRevision := cr, modRevision := mr } }
      = .ok (some { action := "delete", service := some Service.new, timestamp := now }) ∧
    processEvent now
        { eventType := .put,
          kv := some { value := .invalidUtf8, createRevision := cr, modRevision := mr },
          prevKv := pk }
      = .error "invalid utf-8 sequence" ∧
    processEvent now
        { eventType := .delete, kv := some kvd,
          prevKv := some { value := .invalidUtf8, createRevision := cr, modRevision := mr } }
      = .error "invalid utf-8 sequence" ∧
    processEvent now { eventType := t, kv := none, prevKv := pk } = .ok none := by
  refine ⟨rfl, rfl, rfl, rfl, ?_⟩
  cases t <;> rfl

/-- C4: a put notification is classified "create" exactly when the key's
creation revision equals its modification revision and "update"
otherwise; a delete notification returns action "delete" carrying the
service decoded from the previous value; a delete with no previous value
is skipped and `next()` keeps scanning the rest of the stream. -/
theorem C4_watch_classification (now cr mr : Int) (s : Service)
    (pk : Option WatchKv) (kvd : WatchKv) (rest : List WatchResponse) :
    watcherNext now
        ({ canceled := false,
           events := [{ eventType := .put,
                        kv := some { value := .jsonOf s, createRevision := cr, modRevision := mr },
                        prevKv := pk }] } :: rest)
      = .ok { action := if cr = mr then "create" else "update",
              service := some s, timestamp := now } ∧
    watcherNext now
        ({ canceled := false,
           events := [{ eventType := .delete, kv := some kvd,
                        prevKv := some { value := .jsonOf s, createRevision := cr, modRevision := mr } }] } :: rest)
      = .ok { action := "delete", service := some s, timestamp := now } ∧
    watcherNext now
        ({ canceled := false,
           events := [{ eventType := .delete, kv := some kvd, prevKv := none }] } :: rest)
      = watcherNext now rest := by
  refine ⟨?_, ?_, ?_⟩ <;> simp [watcherNext, nextEvents, processEvent, valueDecode]

/-- C5 counterexample: `PREFIX` in the source is `"/vine/registry/"` —
with a trailing slash — so the node path is not
`"/vine/registry" + "/" + sanitize(name) + "/" + sanitize(id)` as the
claim states: at name `"a"`, id `"b"` the code produces
`"/vine/registry//a/b"`, not `"/vine/registry/a/b"`. -/
theorem C5_prefix_counterexample :
    PREFIX ≠ "/vine/registry" ∧
    node_path "a" "b" ≠ "/vine/registry" ++ "/" ++ sanitize "a" ++ "/" ++ sanitize "b" := by
  exact ⟨by decide, by decide⟩

/-- C5 amended: `PREFIX` is exactly `"/vine/registry/"` (trailing slash
included), and the store key for a node is
`PREFIX + "/" + sanitize(name) + "/" + sanitize(id)` — which therefore
contains a doubled slash after the prefix; `sanitize` replaces every `/`
with `-`. -/
theorem C5_node_path_encoding (s i : String) :
    PREFIX = "/vine/registry/" ∧
    node_path s i = PREFIX ++ "/" ++ sanitize s ++ "/" ++ sanitize i ∧
    node_path s i = "/vine/registry//" ++ sanitize s ++ "/" ++ sanitize i ∧
    sanitize "a/b" = "a-b" := by
  exact ⟨rfl, rfl, rfl, by decide⟩

/-- C7: `register` and `deregister` on a service with no nodes fail with
the validation error and perform no store call, for any options
argument and any store behavior, leaving the tracker untouched. -/
theorem C7_empty_nodes_validation (st : RegState) (s : Service)
    (ropt : Option RegisterOptions) (dopt : Option DeregisterOptions)
    (envs : List RegEnv) (dels : List (Except String Unit)) (h : s.nodes = []) :
    register st s ropt envs
      = { result := .error "require at lease one node", state := st, effects := [] } ∧
    deregister st s dopt dels
      = { result := .error "required at lease one node", state := st, effects := [] } := by
  constructor <;> simp [register, deregister, h]

/-- C7 witness: the validation failure at the empty service. -/
theorem C7_empty_nodes_validation_witness :
    Service.new.nodes = [] ∧
    (register { registers := [], leases := [] } Service.new none []
        = { result := .error "require at lease one node",
            state := { registers := [], leases := [] }, effects := [] } ∧
     deregister { registers := [], leases := [] } Service.new none []
        = { result := .error "required at lease one node",
            state := { registers := [], leases := [] }, effects := [] }) :=
  ⟨rfl, C7_empty_nodes_validation { registers := [], leases := [] } Service.new none none [] [] rfl⟩

/-- C9 counterexample: with no `Options` supplied, `EtcdRegistry::new`
falls back to `Options::new()`, whose timeout is 15, not 0 — so the
effective timeout is 15, not the claimed 5. -/
theorem C9_default_timeout_counterexample :
    (newOptions none).timeout = 15 ∧ (newOptions none).timeout ≠ 5 := by
  exact ⟨rfl, by decide⟩

/-- C9 amended: the effective timeout is 5 exactly when a supplied
`Options` carries a zero timeout; when the `Options` value is left
unset, `Options::new()` supplies timeout 15, which is kept. -/
theorem C9_timeout_defaulting (o : Options) (h : o.timeout = 0) :
    (newOptions (some o)).timeout = 5 ∧ (newOptions none).timeout = 15 := by
  constructor
  · simp [newOptions, h]
  · rfl

/-- C9 witness: the zero-timeout defaulting at a concrete `Options`. -/
theorem C9_timeout_defaulting_witness :
    (({ addr := [], timeout := 0, secure := false } : Options).timeout = 0) ∧
    ((newOptions (some { addr := [], timeout := 0, secure := false })).timeout = 5 ∧
     (newOptions none).timeout = 15) :=
  ⟨rfl, C9_timeout_defaulting { addr := [], timeout := 0, secure := false } rfl⟩

/-! ### C2: the idempotent skip -/

/-- A stored node under the same key as `nodeMetaA` but with a different
address (hence a different content hash). -/
def nodeAddr2 : Node :=
  { id := "1", address := "10.0.0.2", port := 11101, metadata := [] }

/-- Tracker state holding the content hash for the key but no lease —
reachable, e.g., after a registration whose lease grant failed. -/
def stHashOnly : RegState :=
  { registers := [("io.vine.helloworld1", nodeMetaA.hashData)], leases := [] }

/-- A store whose read returns an existing leased record for the same
key holding `nodeAddr2`. -/
def envAdopt : RegEnv :=
  { getResult := .ok [{ value := .jsonOf (svcOf nodeAddr2), lease := 9 }],
    keepAliveOk := true, leaseGrant := .ok 7, putResult := .ok () }

/-- C2 counterexample: the tracker caches exactly the hash of the node
being registered and no keep-alive failure occurs, yet `register_node`
still writes: with no cached lease, the read/adoption phase overwrites
the cached hash with the one decoded from the store, the comparison
fails, and a new lease is requested and a put performed — against the
claim's "no store mutation and no new lease". -/
theorem C2_skip_counterexample :
    mapLookup stHashOnly.registers ("io.vine.helloworld" ++ nodeMetaA.id)
      = some nodeMetaA.hashData ∧
    (registerNode stHashOnly (svcOf nodeMetaA) nodeMetaA none envAdopt).effects
      = [.get (node_path "io.vine.helloworld" "1"),
         .leaseGrant 15,
         .put (node_path "io.vine.helloworld" "1") (svcOf nodeMetaA) (some 7)] := by
  exact ⟨rfl, rfl⟩

/-- C2 amended: when the tracker holds both the node's content hash AND
a strictly positive cached lease id for the key (so the read/adoption
phase is skipped), and the keep-alive renewal succeeds, `register_node`
returns success having performed only the keep-alive call — no get, no
put, no lease grant — and leaves the shared cached lease id and hash
unchanged. -/
theorem C2_idempotent_skip (st : RegState) (s : Service) (node : Node)
    (opt : Option RegisterOptions) (env : RegEnv) (lid : Int)
    (hn : s.nodes ≠ [])
    (hl : mapLookup st.leases (s.name ++ node.id) = some lid)
    (hpos : lid > 0)
    (hka : env.keepAliveOk = true)
    (hh : mapLookup st.registers (s.name ++ node.id) = some node.hashData) :
    registerNode st s node opt env
      = { result := .ok (), state := st, effects := [.keepAlive lid] } := by
  have hlen : ¬ s.nodes.length = 0 := by simpa [List.length_eq_zero] using hn
  simp only [registerNode, if_neg hlen, hl, hka]
  simp [registerNodeWrite, hh, hpos]

/-- C2 witness: the skip at a concrete second identical registration. -/
theorem C2_idempotent_skip_witness :
    ((svcOf nodeMetaA).nodes ≠ [] ∧
     mapLookup stAfterA.leases ((svcOf nodeMetaA).name ++ nodeMetaA.id) = some 5 ∧
     (5 : Int) > 0 ∧ envBenign.keepAliveOk = true ∧
     mapLookup stAfterA.registers ((svcOf nodeMetaA).name ++ nodeMetaA.id)
       = some nodeMetaA.hashData) ∧
    registerNode stAfterA (svcOf nodeMetaA) nodeMetaA none envBenign
      = { result := .ok (), state := stAfterA, effects := [.keepAlive 5] } :=
  ⟨⟨by simp [svcOf], rfl, by decide, rfl, rfl⟩,
   C2_idempotent_skip stAfterA (svcOf nodeMetaA) nodeMetaA none envBenign 5
     (by simp [svcOf]) rfl (by decide) rfl rfl⟩

/-! ### C6: lease-grant failure degrades, it does not abort -/

/-- Tracker state with a cached lease but a stale (absent) hash. -/
def stLeaseOnly : RegState :=
  { registers := [], leases := [("io.vine.helloworld1", 7)] }

/-- A store whose lease grant fails but whose put succeeds. -/
def envGrantFail : RegEnv :=
  { getResult := .ok [], keepAliveOk := true,
    leaseGrant := .error "grant failed", putResult := .ok () }

/-- C6 counterexample: the lease grant fails and the put still goes
through without a lease — but afterwards a lease id (the stale cached 7)
IS still cached for the key, against the claim's "no lease id is cached
for the key". -/
theorem C6_grant_failure_counterexample :
    envGrantFail.leaseGrant = .error "grant failed" ∧
    (registerNode stLeaseOnly (svcOf nodeMetaA) nodeMetaA none envGrantFail).result = .ok () ∧
    (registerNode stLeaseOnly (svcOf nodeMetaA) nodeMetaA none envGrantFail).effects
      = [.keepAlive 7, .leaseGrant 15,
         .put (node_path "io.vine.helloworld" "1") (svcOf nodeMetaA) none] ∧
    mapLookup (registerNode stLeaseOnly (svcOf nodeMetaA) nodeMetaA none envGrantFail).state.leases
        "io.vine.helloworld1" = some 7 := by
  exact ⟨rfl, rfl, rfl, rfl⟩

/-- C6 amended: if the lease grant fails, the put is still performed
with no lease option attached (the local lease id stays 0) and the call
succeeds rather than aborting; the write path caches no lease id for the
key — the leases map is left exactly as it was, so a previously cached
(or store-adopted) lease id may remain — and only the content hash is
updated.  The written key then has no TTL. -/
theorem C6_grant_failure_degrades (st : RegState) (s : Service) (node : Node)
    (opt : Option RegisterOptions) (env : RegEnv) (lid : Int) (e : String)
    (hn : s.nodes ≠ [])
    (hl : mapLookup st.leases (s.name ++ node.id) = some lid) (hpos : lid > 0)
    (hh : ¬ mapLookup st.registers (s.name ++ node.id) = some node.hashData)
    (hg : env.leaseGrant = .error e) (hp : env.putResult = .ok ()) :
    registerNode st s node opt env
      = { result := .ok (),
          state := { registers := mapInsert st.registers (s.name ++ node.id) node.hashData,
                     leases := st.leases },
          effects := [.keepAlive lid,
                      .leaseGrant (match opt with | some o => o.ttl | none => 15),
                      .put (node_path s.name node.id) { s with nodes := [node] } none] } := by
  have hlen : ¬ s.nodes.length = 0 := by simpa [List.length_eq_zero] using hn
  simp only [registerNode, if_neg hlen, hl]
  simp [registerNodeWrite, hh, hpos, hg, hp]

/-- C6 witness: the degrade case at a concrete grant failure. -/
theorem C6_grant_failure_degrades_witness :
    ((svcOf nodeMetaA).nodes ≠ [] ∧
     mapLookup stLeaseOnly.leases ((svcOf nodeMetaA).name ++ nodeMetaA.id) = some 7 ∧
     (7 : Int) > 0 ∧
     ¬ mapLookup stLeaseOnly.registers ((svcOf nodeMetaA).name ++ nodeMetaA.id)
         = some nodeMetaA.hashData ∧
     envGrantFail.leaseGrant = .error "grant failed" ∧
     envGrantFail.putResult = .ok ()) ∧
    registerNode stLeaseOnly (svcOf nodeMetaA) nodeMetaA none envGrantFail
      = { result := .ok (),
          state := { registers := mapInsert stLeaseOnly.registers
                       ((svcOf nodeMetaA).name ++ nodeMetaA.id) nodeMetaA.hashData,
                     leases := stLeaseOnly.leases },
          effects := [.keepAlive 7, .leaseGrant 15,
                      .put (node_path (svcOf nodeMetaA).name nodeMetaA.id)
                        { svcOf nodeMetaA with nodes := [nodeMetaA] } none] } :=
  ⟨⟨by simp [svcOf], rfl, by decide, by decide, rfl, rfl⟩,
   C6_grant_failure_degrades stLeaseOnly (svcOf nodeMetaA) nodeMetaA none envGrantFail 7
     "grant failed" (by simp [svcOf]) rfl (by decide) (by decide) rfl rfl⟩

/-! ### C10: every cached lease id is nonzero -/

/-- The invariant: every value in the leases map is nonzero. -/
def LeasesNonzero (m : List (String × Int)) : Prop :=
  ∀ k v, mapLookup m k = some v → v ≠ 0

theorem mapLookup_insert {α : Type} (m : List (String × α)) (k k' : String) (v : α) :
    mapLookup (mapInsert m k v) k' = if k = k' then some v else mapLookup m k' := by
  by_cases h : k = k'
  · subst h; simp [mapLookup_insert_self]
  · simp [h, mapLookup_insert_ne m k k' v h]

theorem leasesNonzero_insert (m : List (String × Int)) (k : String) (v : Int)
    (h : LeasesNonzero m) (hv : v ≠ 0) : LeasesNonzero (mapInsert m k v) := by
  intro k' v' hl
  rw [mapLookup_insert] at hl
  by_cases hk : k = k'
  · rw [if_pos hk] at hl
    cases hl
    exact hv
  · rw [if_neg hk] at hl
    exact h k' v' hl

theorem leasesNonzero_remove (m : List (String × Int)) (k : String)
    (h : LeasesNonzero m) : LeasesNonzero (mapRemove m k) := by
  intro k' v' hl
  rw [mapLookup_remove] at hl
  by_cases hk : k = k'
  · rw [if_pos hk] at hl; cases hl
  · rw [if_neg hk] at hl; exact h k' v' hl

theorem leasesNonzero_adoptKvs (kvs : List KeyValue)
    (regs : List (String × ContentHash)) (ls : List (String × Int))
    (regs' : List (String × ContentHash)) (ls' : List (String × Int))
    (h : adoptKvs regs ls kvs = .ok (regs', ls')) (hl : LeasesNonzero ls) :
    LeasesNonzero ls' := by
  induction kvs generalizing regs ls with
  | nil =>
    simp [adoptKvs] at h
    exact h.2 ▸ hl
  | cons kv rest ih =>
    by_cases hlease : kv.lease > 0
    · rw [adoptKvs, if_pos hlease] at h
      cases hv : kv.value with
      | invalidUtf8 => rw [hv] at h; simp [valueDecode] at h
      | badJson raw => rw [hv] at h; exact ih _ _ h hl
      | jsonOf s =>
        rw [hv] at h
        simp only [valueDecode] at h
        cases hns : s.nodes with
        | nil => simp only [hns] at h; exact ih _ _ h hl
        | cons n tl =>
          simp only [hns] at h
          exact ih _ _ h (leasesNonzero_insert _ _ _ hl (by omega))
    · rw [adoptKvs, if_neg hlease] at h
      exact ih _ _ h hl

theorem leasesNonzero_registerNodeWrite (st : RegState) (s : Service) (node : Node)
    (opt : Option RegisterOptions) (env : RegEnv)
    (regs : List (String × ContentHash)) (ls : List (String × Int))
    (lnf : Bool) (eff : List Effect)
    (hst : LeasesNonzero st.leases) (hls : LeasesNonzero ls) :
    LeasesNonzero (registerNodeWrite st s node opt env regs ls lnf eff).state.leases := by
  unfold registerNodeWrite
  by_cases hc : (mapLookup regs (s.name ++ node.id) = some node.hashData ∧ lnf = false)
  · rw [if_pos hc]
    exact hst
  · rw [if_neg hc]
    cases hg : env.leaseGrant with
    | ok lid =>
      cases hp : env.putResult with
      | error e => simp only [hg, hp]; exact hst
      | ok _ =>
        simp only [hg, hp]
        by_cases hz : lid ≠ 0
        · simp only [if_pos hz]
          exact leasesNonzero_insert _ _ _ hls hz
        · simp only [if_neg hz]
          exact hls
    | error e =>
      cases hp : env.putResult with
      | error e2 => simp only [hg, hp]; exact hst
      | ok _ =>
        simp only [hg, hp]
        simp only [ne_eq, not_true_eq_false, if_false, ite_false]
        exact hls

theorem leasesNonzero_registerNode (st : RegState) (s : Service) (node : Node)
    (opt : Option RegisterOptions) (env : RegEnv) (hst : LeasesNonzero st.leases) :
    LeasesNonzero (registerNode st s node opt env).state.leases := by
  rw [registerNode]
  split
  · exact hst
  · cases hlk : mapLookup st.leases (s.name ++ node.id) with
    | none =>
      simp only [hlk]
      cases env.getResult with
      | error e => exact hst
      | ok kvs =>
        simp only []
        cases hadopt : adoptKvs st.registers st.leases kvs with
        | error e => exact hst
        | ok pair =>
          exact leasesNonzero_registerNodeWrite st s node opt env pair.1 pair.2 false _
            hst (leasesNonzero_adoptKvs kvs st.registers st.leases pair.1 pair.2 hadopt hst)
    | some lid =>
      simp only [hlk]
      split
      · exact leasesNonzero_registerNodeWrite st s node opt env st.registers st.leases _ _ hst hst
      · exact leasesNonzero_registerNodeWrite st s node opt env st.registers st.leases _ _ hst hst

theorem leasesNonzero_deregisterLoop (items : List (Node × Except String Unit))
    (st : RegState) (name : String) (hst : LeasesNonzero st.leases) :
    LeasesNonzero (deregisterLoop st name items).state.leases := by
  induction items generalizing st with
  | nil => exact hst
  | cons item rest ih =>
    obtain ⟨n, res⟩ := item
    cases res with
    | error e => exact leasesNonzero_remove _ _ hst
    | ok _ => exact ih _ (leasesNonzero_remove _ _ hst)

/-- C10: cached lease ids are always nonzero: the empty tracker
satisfies the invariant, and both `register_node` (which inserts only
adopted leases that are strictly positive or freshly granted ids that
are nonzero) and `deregister` (which only removes) preserve it. -/
theorem C10_lease_cache_nonzero :
    LeasesNonzero [] ∧
    (∀ st s node opt env, LeasesNonzero st.leases →
      LeasesNonzero (registerNode st s node opt env).state.leases) ∧
    (∀ st s dopt dels, LeasesNonzero st.leases →
      LeasesNonzero (deregister st s dopt dels).state.leases) := by
  refine ⟨fun k v h => by simp [mapLookup] at h, leasesNonzero_registerNode, ?_⟩
  intro st s dopt dels hst
  rw [deregister]
  split
  · exact hst
  · exact leasesNonzero_deregisterLoop _ _ _ hst

/-! ### C8: read-side aggregation by version -/

/-- The decoded services of a scan response, in order (undecodable JSON
entries skipped; the theorems below additionally require the whole scan
to have decoded without a UTF-8 error, which is what `value_str()?`
enforces in the source). -/
def decodedOk (kvs : List RawValue) : List Service :=
  kvs.filterMap fun v => match v with | .jsonOf s => some s | _ => none

/-- The decoded entries carrying a given version, in scan order. -/
def entriesFor (l : List Service) (v : String) : List Service :=
  l.filter fun s => s.version = v

theorem aggregateStep_lookup_ne (m : List (String × Service)) (sn : Service)
    (v : String) (h : sn.version ≠ v) :
    mapLookup (aggregateStep m sn) v = mapLookup m v := by
  unfold aggregateStep
  cases mapLookup m sn.version <;> simp [mapLookup_insert_ne _ _ _ _ h]

/-- The content of the grouping fold: the entry at version `v` is the
first decoded service with that version, with its node list replaced by
the concatenation, in scan order, of every same-version entry's nodes
(seeded by whatever the accumulator already held at `v`). -/
theorem foldl_aggregateStep_lookup (l : List Service) (m : List (String × Service))
    (v : String) :
    mapLookup (l.foldl aggregateStep m) v =
      match mapLookup m v, entriesFor l v with
      | none, [] => none
      | none, s₁ :: _ => some { s₁ with nodes := (entriesFor l v).flatMap Service.nodes }
      | some s, _ => some { s with nodes := s.nodes ++ (entriesFor l v).flatMap Service.nodes } := by
  induction l generalizing m with
  | nil =>
    cases hm : mapLookup m v <;> simp [entriesFor, hm]
  | cons sn l ih =>
    by_cases hv : sn.version = v
    · subst hv
      have hE : entriesFor (sn :: l) sn.version = sn :: entriesFor l sn.version := by
        simp [entriesFor]
      cases hm : mapLookup m sn.version with
      | none =>
        have hm' : mapLookup (aggregateStep m sn) sn.version = some sn := by
          unfold aggregateStep
          rw [hm]
          exact mapLookup_insert_self m sn.version sn
        rw [List.foldl_cons, ih, hm', hE]
        cases hl : entriesFor l sn.version <;> simp [List.flatMap_cons]
      | some s =>
        have hm' : mapLookup (aggregateStep m sn) sn.version
            = some { s with nodes := s.nodes ++ sn.nodes } := by
          unfold aggregateStep
          rw [hm]
          exact mapLookup_insert_self m sn.version _
        rw [List.foldl_cons, ih, hm', hE]
        cases hl : entriesFor l sn.version <;>
          simp [List.flatMap_cons, List.append_assoc]
    · have hE : entriesFor (sn :: l) v = entriesFor l v := by
        simp [entriesFor, hv]
      rw [List.foldl_cons, ih, aggregateStep_lookup_ne m sn v hv, hE]

theorem buildMapFrom_eq (kvs : List RawValue) (m m' : List (String × Service))
    (h : buildMapFrom m kvs = .ok m') :
    m' = (decodedOk kvs).foldl aggregateStep m := by
  induction kvs generalizing m with
  | nil =>
    simp [buildMapFrom] at h
    simp [decodedOk, h]
  | cons kv rest ih =>
    cases kv with
    | invalidUtf8 => simp [buildMapFrom, valueDecode] at h
    | badJson raw =>
      rw [buildMapFrom] at h
      simp only [valueDecode] at h
      simpa [decodedOk, List.filterMap_cons] using ih _ h
    | jsonOf s =>
      rw [buildMapFrom] at h
      simp only [valueDecode] at h
      simpa [decodedOk, List.filterMap_cons] using ih _ h

theorem mapLookup_mem_keys {α : Type} (m : List (String × α)) (k : String) (v : α)
    (h : mapLookup m k = some v) : k ∈ m.map Prod.fst := by
  induction m with
  | nil => simp [mapLookup] at h
  | cons hd tl ih =>
    rw [mapLookup] at h
    by_cases hk : hd.1 = k
    · simp [hk]
    · rw [if_neg hk] at h
      simp [ih h]

/-- A looked-up value appears in `list_service`'s sorted output. -/
theorem mem_sorted_out (m : List (String × Service)) (k : String) (u : Service)
    (h : mapLookup m k = some u) : u ∈ (sortedKeys m).filterMap (mapLookup m) := by
  refine List.mem_filterMap.2 ⟨k, ?_, h⟩
  exact ((List.perm_insertionSort _ _).mem_iff).2 (mapLookup_mem_keys m k u h)

/-- C8: with the scan decoded (no UTF-8 failure), the grouped map built
by `get_service`/`list_service` holds, for each version, the first
decoded entry of that version with the node lists of all same-version
entries concatenated in scan order; both functions return exactly the
grouped services (sorted by version key for `list_service`); and two
decoded entries with distinct versions yield two distinct services in
`list_service`'s result. -/
theorem C8_version_aggregation (kvs : List RawValue) (m : List (String × Service))
    (h : buildMapFrom [] kvs = .ok m) :
    (∀ v, mapLookup m v =
      match entriesFor (decodedOk kvs) v with
      | [] => none
      | s₁ :: _ => some { s₁ with nodes := (entriesFor (decodedOk kvs) v).flatMap Service.nodes }) ∧
    (kvs ≠ [] →
      get_service kvs = .ok (m.map (·.2)) ∧
      list_service kvs = .ok ((sortedKeys m).filterMap (mapLookup m))) ∧
    (∀ s t, RawValue.jsonOf s ∈ kvs → RawValue.jsonOf t ∈ kvs → s.version ≠ t.version →
      ∃ u w out, list_service kvs = .ok out ∧ u ∈ out ∧ w ∈ out ∧
        u.version = s.version ∧ w.version = t.version ∧ u ≠ w) := by
  have hm := buildMapFrom_eq kvs [] m h
  have hlook : ∀ v, mapLookup m v =
      match entriesFor (decodedOk kvs) v with
      | [] => none
      | s₁ :: _ => some { s₁ with nodes := (entriesFor (decodedOk kvs) v).flatMap Service.nodes } := by
    intro v
    rw [hm, foldl_aggregateStep_lookup]
    simp only [mapLookup]
    cases entriesFor (decodedOk kvs) v <;> rfl
  have hlen : kvs ≠ [] → ¬ kvs.length = 0 := fun hne => by
    simpa [List.length_eq_zero] using hne
  have hout : kvs ≠ [] →
      get_service kvs = .ok (m.map (·.2)) ∧
      list_service kvs = .ok ((sortedKeys m).filterMap (mapLookup m)) := by
    intro hne
    constructor
    · rw [get_service, if_neg (hlen hne), h]
    · rw [list_service, if_neg (hlen hne), h]
  refine ⟨hlook, hout, ?_⟩
  intro s t hs ht hvne
  have hne : kvs ≠ [] := by
    intro hk
    rw [hk] at hs
    exact absurd hs (List.not_mem_nil _)
  -- A decoded entry for a version makes that version's group nonempty
  -- and pins its version field.
  have key : ∀ x : Service, RawValue.jsonOf x ∈ kvs →
      ∃ u, mapLookup m x.version = some u ∧ u.version = x.version := by
    intro x hx
    have hxd : x ∈ decodedOk kvs := List.mem_filterMap.2 ⟨RawValue.jsonOf x, hx, rfl⟩
    have hxe : x ∈ entriesFor (decodedOk kvs) x.version := by
      simp [entriesFor, hxd]
    cases hE : entriesFor (decodedOk kvs) x.version with
    | nil => rw [hE] at hxe; exact absurd hxe (List.not_mem_nil _)
    | cons s₁ tl =>
      refine ⟨{ s₁ with nodes := (entriesFor (decodedOk kvs) x.version).flatMap Service.nodes },
        ?_, ?_⟩
      · rw [hlook x.version, hE]
      · have hs₁ : s₁ ∈ entriesFor (decodedOk kvs) x.version := by
          rw [hE]; exact List.mem_cons_self s₁ tl
        have := (List.mem_filter.1 hs₁).2
        simpa [entriesFor] using this
  obtain ⟨u, hu, huv⟩ := key s hs
  obtain ⟨w, hw, hwv⟩ := key t ht
  refine ⟨u, w, (sortedKeys m).filterMap (mapLookup m), (hout hne).2,
    mem_sorted_out m s.version u hu, mem_sorted_out m t.version w hw, huv, hwv, ?_⟩
  intro huw
  exact hvne (huv ▸ hwv ▸ congrArg Service.version huw)

/-- Concrete nodes for the C8 witness. -/
def nodeW (i : String) : Node :=
  { id := i, address := "192.168.1.111", port := 11101, metadata := [] }

/-- A stored per-node record for the C8 witness. -/
def svcW (ver : String) (ns : List Node) : Service :=
  { name := "io.vine.helloworld", version := ver, metadata := [],
    endpoints := [], nodes := ns, options := none, apis := none }

/-- A scan response with two records of version v1.0.0, one undecodable
record and one record of version v2.0.0. -/
def kvsW : List RawValue :=
  [.jsonOf (svcW "v1.0.0" [nodeW "1"]), .badJson "junk",
   .jsonOf (svcW "v1.0.0" [nodeW "2"]), .jsonOf (svcW "v2.0.0" [nodeW "3"])]

/-- The grouped map the source builds for `kvsW`. -/
def mW : List (String × Service) :=
  [("v1.0.0", svcW "v1.0.0" [nodeW "1", nodeW "2"]),
   ("v2.0.0", svcW "v2.0.0" [nodeW "3"])]

/-- C8 witness: aggregation at a concrete scan with a shared version, a
skipped undecodable entry and a second version. -/
theorem C8_version_aggregation_witness :
    buildMapFrom [] kvsW = .ok mW ∧
    ((∀ v, mapLookup mW v =
      match entriesFor (decodedOk kvsW) v with
      | [] => none
      | s₁ :: _ => some { s₁ with nodes := (entriesFor (decodedOk kvsW) v).flatMap Service.nodes }) ∧
    (kvsW ≠ [] →
      get_service kvsW = .ok (mW.map (·.2)) ∧
      list_service kvsW = .ok ((sortedKeys mW).filterMap (mapLookup mW))) ∧
    (∀ s t, RawValue.jsonOf s ∈ kvsW → RawValue.jsonOf t ∈ kvsW → s.version ≠ t.version →
      ∃ u w out, list_service kvsW = .ok out ∧ u ∈ out ∧ w ∈ out ∧
        u.version = s.version ∧ w.version = t.version ∧ u ≠ w)) :=
  ⟨rfl, C8_version_aggregation kvsW mW rfl⟩

/-- C10 witness: the invariant at the empty tracker and after a concrete
registration and deregistration. -/
theorem C10_lease_cache_nonzero_witness :
    LeasesNonzero (RegState.mk [] []).leases ∧
    LeasesNonzero (registerNode (RegState.mk [] []) (svcOf nodeMetaA) nodeMetaA none
        envBenign).state.leases ∧
    LeasesNonzero (deregister (RegState.mk [] []) (svcOf nodeMetaA) none
        [.ok ()]).state.leases :=
  ⟨C10_lease_cache_nonzero.1,
   C10_lease_cache_nonzero.2.1 _ _ _ _ _ C10_lease_cache_nonzero.1,
   C10_lease_cache_nonzero.2.2 _ _ _ _ C10_lease_cache_nonzero.1⟩

end Vine
